import Mathlib

/-!
Verification of the discount-analysis dashboard (src/dashboard.py).

The program is a linear pandas pipeline: load a CSV, derive four numeric
columns, filter rows by category / region / discount range, and render
metrics, charts and textual insights.  We embed the numeric cells as an
IEEE-754-style extended value type `FV` (a rational, NaN, or a signed
infinity; the embedding has no signed zero, CSV zeros are plain zeros),
with the arithmetic and comparison semantics pandas uses:

 * any operation on NaN yields NaN, comparisons with NaN are `false`;
 * division of a nonzero number by zero yields a signed infinity and
   `0 / 0` yields NaN;
 * aggregations (`sum`, `mean`, `min`, `max`) skip NaN entries, as pandas
   does with its default `skipna=True`; an empty `sum` is `0` and an empty
   `mean` / `min` / `max` is NaN.

Tables are lists of rows; the filter, group-by, metric and insight logic
is translated function by function from dashboard.py.
-/

/-- An extended floating-point-style value: NaN, +inf, -inf, or a finite
rational. -/
inductive FV where
  | nan : FV
  | pinf : FV
  | ninf : FV
  | num : ℚ → FV
deriving DecidableEq, Repr

/-- Negation on extended values. -/
def fvNeg : FV → FV
  | FV.nan => FV.nan
  | FV.pinf => FV.ninf
  | FV.ninf => FV.pinf
  | FV.num q => FV.num (-q)

/-- Addition on extended values; NaN absorbs, and opposite infinities
give NaN. -/
def fvAdd : FV → FV → FV
  | FV.nan, _ => FV.nan
  | _, FV.nan => FV.nan
  | FV.pinf, FV.ninf => FV.nan
  | FV.ninf, FV.pinf => FV.nan
  | FV.pinf, _ => FV.pinf
  | FV.ninf, _ => FV.ninf
  | _, FV.pinf => FV.pinf
  | _, FV.ninf => FV.ninf
  | FV.num a, FV.num b => FV.num (a + b)

/-- Subtraction on extended values. -/
def fvSub (a b : FV) : FV := fvAdd a (fvNeg b)

/-- Multiplication on extended values; `0 * inf = NaN` as in IEEE 754. -/
def fvMul : FV → FV → FV
  | FV.nan, _ => FV.nan
  | _, FV.nan => FV.nan
  | FV.pinf, FV.pinf => FV.pinf
  | FV.pinf, FV.ninf => FV.ninf
  | FV.ninf, FV.pinf => FV.ninf
  | FV.ninf, FV.ninf => FV.pinf
  | FV.pinf, FV.num q => if 0 < q then FV.pinf else if q < 0 then FV.ninf else FV.nan
  | FV.num q, FV.pinf => if 0 < q then FV.pinf else if q < 0 then FV.ninf else FV.nan
  | FV.ninf, FV.num q => if 0 < q then FV.ninf else if q < 0 then FV.pinf else FV.nan
  | FV.num q, FV.ninf => if 0 < q then FV.ninf else if q < 0 then FV.pinf else FV.nan
  | FV.num a, FV.num b => FV.num (a * b)

/-- Division on extended values; a nonzero number divided by zero is a
signed infinity (the model has no negative zero, so the denominator zero
counts as +0), `0 / 0` is NaN, `inf / inf` is NaN. -/
def fvDiv : FV → FV → FV
  | FV.nan, _ => FV.nan
  | _, FV.nan => FV.nan
  | FV.pinf, FV.pinf => FV.nan
  | FV.pinf, FV.ninf => FV.nan
  | FV.ninf, FV.pinf => FV.nan
  | FV.ninf, FV.ninf => FV.nan
  | FV.pinf, FV.num q => if q < 0 then FV.ninf else FV.pinf
  | FV.ninf, FV.num q => if q < 0 then FV.pinf else FV.ninf
  | FV.num _, FV.pinf => FV.num 0
  | FV.num _, FV.ninf => FV.num 0
  | FV.num a, FV.num b =>
      if b = 0 then (if a = 0 then FV.nan else if 0 < a then FV.pinf else FV.ninf)
      else FV.num (a / b)

/-- Less-or-equal comparison; any comparison against NaN is `false`. -/
def fvLe : FV → FV → Bool
  | FV.nan, _ => false
  | _, FV.nan => false
  | FV.ninf, _ => true
  | _, FV.pinf => true
  | FV.pinf, _ => false
  | _, FV.ninf => false
  | FV.num a, FV.num b => a ≤ b

/-- Strict less-than comparison; any comparison against NaN is `false`. -/
def fvLt : FV → FV → Bool
  | FV.nan, _ => false
  | _, FV.nan => false
  | FV.pinf, _ => false
  | _, FV.ninf => false
  | FV.ninf, _ => true
  | _, FV.pinf => true
  | FV.num a, FV.num b => a < b

/-- Equality comparison; `NaN == NaN` is `false`. -/
def fvEq : FV → FV → Bool
  | FV.num a, FV.num b => a == b
  | FV.pinf, FV.pinf => true
  | FV.ninf, FV.ninf => true
  | _, _ => false

/-- A value is finite when it is an actual number. -/
def fvIsFinite : FV → Bool
  | FV.num _ => true
  | _ => false

/-- NaN test. -/
def fvIsNan : FV → Bool
  | FV.nan => true
  | _ => false

/-- Pandas `Series.sum()` with the default `skipna=True`: NaN entries are
dropped, the empty sum is `0`. -/
def sumSkip (l : List FV) : FV :=
  (l.filter (fun v => !(fvIsNan v))).foldl fvAdd (FV.num 0)

/-- Pandas `Series.mean()`: the sum of the non-NaN entries divided by
their count; NaN when no entry is a number. -/
def meanSkip (l : List FV) : FV :=
  let k := l.filter (fun v => !(fvIsNan v))
  if k.isEmpty then FV.nan
  else fvDiv (k.foldl fvAdd (FV.num 0)) (FV.num k.length)

/-- Binary minimum of two non-NaN extended values. -/
def fvMin2 (a b : FV) : FV := if fvLe a b then a else b

/-- Binary maximum of two non-NaN extended values. -/
def fvMax2 (a b : FV) : FV := if fvLe a b then b else a

/-- Pandas `Series.min()`: minimum over the non-NaN entries, NaN when
there are none. -/
def minSkip (l : List FV) : FV :=
  match l.filter (fun v => !(fvIsNan v)) with
  | [] => FV.nan
  | h :: t => t.foldl fvMin2 h

/-- Pandas `Series.max()`: maximum over the non-NaN entries, NaN when
there are none. -/
def maxSkip (l : List FV) : FV :=
  match l.filter (fun v => !(fvIsNan v)) with
  | [] => FV.nan
  | h :: t => t.foldl fvMax2 h

/-- A source row of the CSV: the columns dashboard.py reads.  CSV cells
parse to finite numbers or NaN; the type also admits infinities so the
embedding is total. -/
structure Row where
  price : FV
  quantity : FV
  discount : FV
  category : String
  region : String
deriving DecidableEq, Repr

/-- A row after the feature-engineering block (dashboard.py lines 49-52)
added the four derived columns. -/
structure DRow where
  price : FV
  quantity : FV
  discount : FV
  category : String
  region : String
  revenue : FV
  discount_value : FV
  profit : FV
  profit_margin : FV
deriving DecidableEq, Repr

/-- dashboard.py lines 49-52:
`df["revenue"] = df["price"] * df["quantity"]`,
`df["discount_value"] = df["revenue"] * df["discount"]`,
`df["profit"] = df["revenue"] - df["discount_value"]`,
`df["profit_margin"] = df["profit"] / df["revenue"]`. -/
def derive (r : Row) : DRow :=
  let rev := fvMul r.price r.quantity
  let dv := fvMul rev r.discount
  let pr := fvSub rev dv
  { price := r.price
    quantity := r.quantity
    discount := r.discount
    category := r.category
    region := r.region
    revenue := rev
    discount_value := dv
    profit := pr
    profit_margin := fvDiv pr rev }

example : (derive ⟨FV.num 100, FV.num 2, FV.num (1/10), "A", "X"⟩).revenue = FV.num 200 := by
  norm_num [derive, fvMul, fvSub, fvAdd, fvNeg, fvDiv]

example : (derive ⟨FV.num 100, FV.num 2, FV.num (1/10), "A", "X"⟩).profit = FV.num 180 := by
  norm_num [derive, fvMul, fvSub, fvAdd, fvNeg, fvDiv]

example : (derive ⟨FV.num 100, FV.num 2, FV.num (1/10), "A", "X"⟩).profit_margin = FV.num (9/10) := by
  norm_num [derive, fvMul, fvSub, fvAdd, fvNeg, fvDiv]

example : (derive ⟨FV.num 0, FV.num 2, FV.num (1/10), "A", "X"⟩).profit_margin = FV.nan := by
  norm_num [derive, fvMul, fvSub, fvAdd, fvNeg, fvDiv]

/-- The sidebar filter state (dashboard.py lines 59-76): the selected
category values, the selected region values, and the two ends of the
discount slider. -/
structure FilterState where
  cats : List String
  regs : List String
  lo : FV
  hi : FV
deriving DecidableEq, Repr

/-- One row's filter test, dashboard.py lines 78-83:
`df["category"].isin(categories) & df["region"].isin(regions) &
(df["discount"] >= lo) & (df["discount"] <= hi)`. -/
def rowPass (fs : FilterState) (r : DRow) : Bool :=
  fs.cats.contains r.category && fs.regs.contains r.region &&
    fvLe fs.lo r.discount && fvLe r.discount fs.hi

/-- The Filtered View, dashboard.py lines 78-83. -/
def filtered_df (fs : FilterState) (tbl : List DRow) : List DRow :=
  tbl.filter (rowPass fs)

/-- The default filter state, dashboard.py lines 59-76: all distinct
categories, all distinct regions, and the slider default
`(df["discount"].min(), df["discount"].max())` over the full dataset. -/
def defaultFilter (tbl : List DRow) : FilterState :=
  { cats := (tbl.map DRow.category).dedup
    regs := (tbl.map DRow.region).dedup
    lo := minSkip (tbl.map DRow.discount)
    hi := maxSkip (tbl.map DRow.discount) }

/-- The four headline metrics of dashboard.py lines 91-94. -/
structure Metrics where
  avg_discount : FV
  total_revenue : FV
  total_profit : FV
  avg_margin : FV
deriving DecidableEq, Repr

/-- dashboard.py lines 91-94: `filtered_df["discount"].mean()`,
`filtered_df["revenue"].sum()`, `filtered_df["profit"].sum()`,
`filtered_df["profit_margin"].mean()`. -/
def metrics (fv : List DRow) : Metrics :=
  { avg_discount := meanSkip (fv.map DRow.discount)
    total_revenue := sumSkip (fv.map DRow.revenue)
    total_profit := sumSkip (fv.map DRow.profit)
    avg_margin := meanSkip (fv.map DRow.profit_margin) }

/-- The grouped bar chart of dashboard.py lines 127-134: for a group key
`(category, discount > 0)`, the bar height is the group's mean profit
(`groupby(["category", filtered_df["discount"] > 0])["profit"].mean()`). -/
def barHeight (fv : List DRow) (c : String) (flag : Bool) : FV :=
  meanSkip ((fv.filter (fun r => r.category == c && (fvLt (FV.num 0) r.discount == flag))).map DRow.profit)

/-- Modelled from the spec sentence for C6: the bar chart as the claim
describes it, with the discounted group `discount > 0` and the
non-discounted group `discount == 0`.  Written for comparison with
`barHeight`, which embeds the source. -/
def specBarHeight (fv : List DRow) (c : String) (flag : Bool) : FV :=
  meanSkip ((fv.filter (fun r => r.category == c &&
    (if flag then fvLt (FV.num 0) r.discount else fvEq r.discount (FV.num 0)))).map DRow.profit)

/-- dashboard.py line 151: `filtered_df[filtered_df["discount"] > 0]`. -/
def discountedRows (fv : List DRow) : List DRow :=
  fv.filter (fun r => fvLt (FV.num 0) r.discount)

/-- dashboard.py line 152: `filtered_df[filtered_df["discount"] == 0]`. -/
def nonDiscountedRows (fv : List DRow) : List DRow :=
  fv.filter (fun r => fvEq r.discount (FV.num 0))

/-- The outcome of the insights section: either the two formatted
comparison figures, or the notice that no comparison is possible. -/
inductive InsightResult where
  | cannotCompare : InsightResult
  | insights (sales_boost profit_diff : FV) : InsightResult
deriving DecidableEq, Repr

/-- dashboard.py lines 154-161: if the non-discounted subset is non-empty,
compute `sales_boost` and `profit_diff`; otherwise show the
"cannot compare" notice. -/
def insightNarrator (fv : List DRow) : InsightResult :=
  if (nonDiscountedRows fv).isEmpty then InsightResult.cannotCompare
  else
    InsightResult.insights
      (fvMul (fvDiv
        (fvSub (meanSkip ((discountedRows fv).map DRow.quantity))
               (meanSkip ((nonDiscountedRows fv).map DRow.quantity)))
        (meanSkip ((nonDiscountedRows fv).map DRow.quantity))) (FV.num 100))
      (fvMul (fvSub (meanSkip ((discountedRows fv).map DRow.profit_margin))
                    (meanSkip ((nonDiscountedRows fv).map DRow.profit_margin))) (FV.num 100))

/-- The raw header of the loaded CSV: its column names as written in the
file. -/
structure RawCols where
  cols : List String
deriving DecidableEq, Repr

/-- The state of the table header after the cleaning block, together with
whether the date column was parsed. -/
structure CleanResult where
  cols : List String
  date_parsed : Bool
deriving DecidableEq, Repr

/-- Python `str.isspace` on the ASCII whitespace characters `strip()`
removes. -/
def pyIsSpace (c : Char) : Bool :=
  c == ' ' || c == '\t' || c == '\n' || c == '\r' || c == '\x0b' || c == '\x0c'

/-- Python `str.strip()`: drop leading and trailing whitespace. -/
def pyStrip (s : String) : String :=
  ⟨((s.data.dropWhile pyIsSpace).reverse.dropWhile pyIsSpace).reverse⟩

/-- Python `str.lower()` (ASCII case mapping). -/
def pyLower (s : String) : String :=
  ⟨s.data.map Char.toLower⟩

/-- The normalization applied to one column name at dashboard.py line 46:
`col.strip().lower()`. -/
def normName (s : String) : String := pyLower (pyStrip s)

/-- dashboard.py lines 42-46, in source order: the date column check
`if "order_date" in df.columns` runs at line 42, BEFORE the column names
are normalized at line 46, so it sees the raw names. -/
def cleanColumns (f : RawCols) : CleanResult :=
  { date_parsed := f.cols.contains "order_date"
    cols := f.cols.map normName }

/-- Modelled from the spec sentence for C5: the cleaning block as the
claim describes it, with normalization happening before every lookup, so
that the date column is recognised from its normalized name.  Written for
comparison with `cleanColumns`, which embeds the source. -/
def specCleanColumns (f : RawCols) : CleanResult :=
  { date_parsed := (f.cols.map normName).contains "order_date"
    cols := f.cols.map normName }

/-- The whole-run output: either the missing-file error stop
(dashboard.py lines 28-30) or the rendered page contents. -/
inductive DashOutput where
  | missingInput : DashOutput
  | rendered (table : List DRow) (fv : List DRow) (m : Metrics) (ins : InsightResult) : DashOutput
deriving DecidableEq, Repr

/-- The top-level control flow of dashboard.py: when the dataset file is
absent, `st.error` plus `st.stop()` end the run (lines 28-30); otherwise
the table is loaded, derived, filtered and rendered. -/
def runDashboard (fileExists : Bool) (raw : List Row) (fs : FilterState) : DashOutput :=
  if fileExists then
    let tbl := raw.map derive
    let fv := filtered_df fs tbl
    DashOutput.rendered tbl fv (metrics fv) (insightNarrator fv)
  else DashOutput.missingInput

/-!
Order lemmas for `fvLe` on non-NaN values, used to bound the slider
defaults `minSkip` / `maxSkip`.
-/

lemma fvLe_ne_nan_left {a b : FV} (h : fvLe a b = true) : a ≠ FV.nan := by
  cases a <;> cases b <;> simp_all [fvLe]

lemma fvLe_ne_nan_right {a b : FV} (h : fvLe a b = true) : b ≠ FV.nan := by
  cases a <;> cases b <;> simp_all [fvLe]

lemma fvLe_refl {a : FV} (h : a ≠ FV.nan) : fvLe a a = true := by
  cases a <;> simp_all [fvLe]

lemma fvLe_trans {a b c : FV} (h1 : fvLe a b = true) (h2 : fvLe b c = true) :
    fvLe a c = true := by
  cases a <;> cases b <;> cases c <;> simp_all [fvLe]
  exact le_trans h1 h2

lemma fvLe_total {a b : FV} (ha : a ≠ FV.nan) (hb : b ≠ FV.nan) :
    fvLe a b = true ∨ fvLe b a = true := by
  cases a <;> cases b <;> simp_all [fvLe]
  exact le_total _ _

lemma ne_nan_of_mem_filter {l : List FV} {y : FV}
    (h : y ∈ l.filter (fun v => !(fvIsNan v))) : y ≠ FV.nan := by
  have := (List.mem_filter.mp h).2
  cases y <;> simp_all [fvIsNan]

lemma fvMin2_ne_nan {a b : FV} (ha : a ≠ FV.nan) (hb : b ≠ FV.nan) :
    fvMin2 a b ≠ FV.nan := by
  unfold fvMin2; split <;> assumption

lemma fvMin2_le_left {a b : FV} (ha : a ≠ FV.nan) (hb : b ≠ FV.nan) :
    fvLe (fvMin2 a b) a = true := by
  unfold fvMin2; split
  · exact fvLe_refl ha
  · rcases fvLe_total ha hb with h | h
    · contradiction
    · exact h

lemma fvMin2_le_right {a b : FV} (_ha : a ≠ FV.nan) (hb : b ≠ FV.nan) :
    fvLe (fvMin2 a b) b = true := by
  unfold fvMin2; split
  · assumption
  · exact fvLe_refl hb

lemma fvMax2_ne_nan {a b : FV} (ha : a ≠ FV.nan) (hb : b ≠ FV.nan) :
    fvMax2 a b ≠ FV.nan := by
  unfold fvMax2; split <;> assumption

lemma fvMax2_ge_left {a b : FV} (ha : a ≠ FV.nan) (_hb : b ≠ FV.nan) :
    fvLe a (fvMax2 a b) = true := by
  unfold fvMax2; split
  · assumption
  · exact fvLe_refl ha

lemma fvMax2_ge_right {a b : FV} (ha : a ≠ FV.nan) (hb : b ≠ FV.nan) :
    fvLe b (fvMax2 a b) = true := by
  unfold fvMax2; split
  · exact fvLe_refl hb
  · rcases fvLe_total ha hb with h | h
    · contradiction
    · exact h

lemma foldl_fvMin2_le (t : List FV) (a x : FV) (ha : a ≠ FV.nan)
    (hmem : ∀ y ∈ t, y ≠ FV.nan) (hx : x = a ∨ x ∈ t) :
    fvLe (t.foldl fvMin2 a) x = true := by
  induction t generalizing a x with
  | nil =>
      rcases hx with rfl | h
      · exact fvLe_refl ha
      · simp at h
  | cons b tl ih =>
      have hb : b ≠ FV.nan := hmem b (List.mem_cons_self b tl)
      have hinit : fvMin2 a b ≠ FV.nan := fvMin2_ne_nan ha hb
      have htl : ∀ y ∈ tl, y ≠ FV.nan := fun y hy => hmem y (List.mem_cons_of_mem _ hy)
      simp only [List.foldl_cons]
      rcases hx with hxa | hx
      · rw [hxa]
        exact fvLe_trans (ih (fvMin2 a b) (fvMin2 a b) hinit htl (Or.inl rfl)) (fvMin2_le_left ha hb)
      · rcases List.mem_cons.mp hx with hxb | hx
        · rw [hxb]
          exact fvLe_trans (ih (fvMin2 a b) (fvMin2 a b) hinit htl (Or.inl rfl)) (fvMin2_le_right ha hb)
        · exact ih (fvMin2 a b) x hinit htl (Or.inr hx)

lemma foldl_fvMax2_ge (t : List FV) (a x : FV) (ha : a ≠ FV.nan)
    (hmem : ∀ y ∈ t, y ≠ FV.nan) (hx : x = a ∨ x ∈ t) :
    fvLe x (t.foldl fvMax2 a) = true := by
  induction t generalizing a x with
  | nil =>
      rcases hx with rfl | h
      · exact fvLe_refl ha
      · simp at h
  | cons b tl ih =>
      have hb : b ≠ FV.nan := hmem b (List.mem_cons_self b tl)
      have hinit : fvMax2 a b ≠ FV.nan := fvMax2_ne_nan ha hb
      have htl : ∀ y ∈ tl, y ≠ FV.nan := fun y hy => hmem y (List.mem_cons_of_mem _ hy)
      simp only [List.foldl_cons]
      rcases hx with hxa | hx
      · rw [hxa]
        exact fvLe_trans (fvMax2_ge_left ha hb) (ih (fvMax2 a b) (fvMax2 a b) hinit htl (Or.inl rfl))
      · rcases List.mem_cons.mp hx with hxb | hx
        · rw [hxb]
          exact fvLe_trans (fvMax2_ge_right ha hb) (ih (fvMax2 a b) (fvMax2 a b) hinit htl (Or.inl rfl))
        · exact ih (fvMax2 a b) x hinit htl (Or.inr hx)

lemma minSkip_le {l : List FV} {q : ℚ} (hq : FV.num q ∈ l) :
    fvLe (minSkip l) (FV.num q) = true := by
  have hmem : FV.num q ∈ l.filter (fun v => !(fvIsNan v)) :=
    List.mem_filter.mpr ⟨hq, by simp [fvIsNan]⟩
  unfold minSkip
  cases hfl : l.filter (fun v => !(fvIsNan v)) with
  | nil => rw [hfl] at hmem; simp at hmem
  | cons b t =>
      rw [hfl] at hmem
      have hnn : ∀ y ∈ b :: t, y ≠ FV.nan := fun y hy => ne_nan_of_mem_filter (hfl ▸ hy)
      exact foldl_fvMin2_le t b (FV.num q) (hnn b (List.mem_cons_self b t))
        (fun y hy => hnn y (List.mem_cons_of_mem _ hy)) (List.mem_cons.mp hmem)

lemma le_maxSkip {l : List FV} {q : ℚ} (hq : FV.num q ∈ l) :
    fvLe (FV.num q) (maxSkip l) = true := by
  have hmem : FV.num q ∈ l.filter (fun v => !(fvIsNan v)) :=
    List.mem_filter.mpr ⟨hq, by simp [fvIsNan]⟩
  unfold maxSkip
  cases hfl : l.filter (fun v => !(fvIsNan v)) with
  | nil => rw [hfl] at hmem; simp at hmem
  | cons b t =>
      rw [hfl] at hmem
      have hnn : ∀ y ∈ b :: t, y ≠ FV.nan := fun y hy => ne_nan_of_mem_filter (hfl ▸ hy)
      exact foldl_fvMax2_ge t b (FV.num q) (hnn b (List.mem_cons_self b t))
        (fun y hy => hnn y (List.mem_cons_of_mem _ hy)) (List.mem_cons.mp hmem)

/-!
Claim theorems.
-/

lemma fvLe_nan_right (a : FV) : fvLe a FV.nan = false := by
  cases a <;> rfl

/-- C1: for every row of the loaded table, the derived columns satisfy
revenue = price * quantity, discount_value = revenue * discount,
profit = revenue - discount_value and profit_margin = profit / revenue,
and profit_margin is non-finite whenever revenue = 0. -/
theorem derived_columns_correct (r : Row) :
    (derive r).revenue = fvMul r.price r.quantity ∧
    (derive r).discount_value = fvMul (derive r).revenue r.discount ∧
    (derive r).profit = fvSub (derive r).revenue (derive r).discount_value ∧
    (derive r).profit_margin = fvDiv (derive r).profit (derive r).revenue ∧
    ((derive r).revenue = FV.num 0 → fvIsFinite (derive r).profit_margin = false) := by
  refine ⟨rfl, rfl, rfl, rfl, ?_⟩
  intro h
  show fvIsFinite (fvDiv (fvSub (fvMul r.price r.quantity)
    (fvMul (fvMul r.price r.quantity) r.discount)) (fvMul r.price r.quantity)) = false
  have h0 : fvMul r.price r.quantity = FV.num 0 := h
  rw [h0]
  cases r.discount <;> simp [fvMul, fvSub, fvAdd, fvNeg, fvDiv, fvIsFinite]

/-- C1 witness: a concrete zero-revenue row has a non-finite margin. -/
theorem derived_columns_correct_witness :
    (derive ⟨FV.num 0, FV.num 3, FV.num (1/2), "a", "x"⟩).revenue = FV.num 0 ∧
    fvIsFinite (derive ⟨FV.num 0, FV.num 3, FV.num (1/2), "a", "x"⟩).profit_margin = false := by
  have hrev : (derive ⟨FV.num 0, FV.num 3, FV.num (1/2), "a", "x"⟩).revenue = FV.num 0 := by
    norm_num [derive, fvMul]
  exact ⟨hrev, (derived_columns_correct ⟨FV.num 0, FV.num 3, FV.num (1/2), "a", "x"⟩).2.2.2.2 hrev⟩

/-- Modelled from the spec sentence for C2: a row belongs to the Filtered
View exactly when its category is selected, its region is selected, and
its discount lies within the inclusive slider interval. -/
def specPassP (fs : FilterState) (r : DRow) : Prop :=
  r.category ∈ fs.cats ∧ r.region ∈ fs.regs ∧
    fvLe fs.lo r.discount = true ∧ fvLe r.discount fs.hi = true

/-- C2: for every filter state, the Filtered View is exactly the rows of
the dataset whose category is selected, whose region is selected, and
whose discount lies in the inclusive interval of the slider. -/
theorem filtered_view_characterization (fs : FilterState) (tbl : List DRow) (r : DRow) :
    r ∈ filtered_df fs tbl ↔ r ∈ tbl ∧ specPassP fs r := by
  simp [filtered_df, List.mem_filter, rowPass, specPassP, and_assoc]

/-- C2 witness: a concrete row passing a concrete filter is in the
Filtered View. -/
theorem filtered_view_characterization_witness :
    derive ⟨FV.num 3, FV.num 2, FV.num 0, "A", "X"⟩ ∈
      filtered_df ⟨["A"], ["X"], FV.num 0, FV.num 1⟩
        [derive ⟨FV.num 3, FV.num 2, FV.num 0, "A", "X"⟩] := by
  refine (filtered_view_characterization ⟨["A"], ["X"], FV.num 0, FV.num 1⟩
    [derive ⟨FV.num 3, FV.num 2, FV.num 0, "A", "X"⟩]
    (derive ⟨FV.num 3, FV.num 2, FV.num 0, "A", "X"⟩)).mpr ⟨List.mem_singleton.mpr rfl, ?_⟩
  refine ⟨by simp [derive], by simp [derive], ?_, ?_⟩ <;> norm_num [derive, fvLe]

/-- C7: when the input file is absent, the run halts with the
user-visible missing-dataset error and renders nothing. -/
theorem missing_input_halts (raw : List Row) (fs : FilterState) :
    runDashboard false raw fs = DashOutput.missingInput ∧
    ∀ tbl fv m ins, runDashboard false raw fs ≠ DashOutput.rendered tbl fv m ins := by
  refine ⟨rfl, ?_⟩
  intro tbl fv m ins h
  simp [runDashboard] at h

/-- C10: a row whose discount is missing (NaN) is excluded from the
Filtered View under every filter state, because NaN satisfies neither
inclusive bound comparison. -/
theorem nan_discount_excluded (fs : FilterState) (tbl : List DRow) (r : DRow)
    (h : r.discount = FV.nan) : r ∉ filtered_df fs tbl := by
  intro hmem
  have hp : rowPass fs r = true := (List.mem_filter.mp hmem).2
  simp [rowPass, h, fvLe_nan_right] at hp

/-- C10 witness: a concrete NaN-discount row is not in the Filtered View
even under the default filter over its own table. -/
theorem nan_discount_excluded_witness :
    (derive ⟨FV.num 10, FV.num 1, FV.nan, "a", "x"⟩).discount = FV.nan ∧
    derive ⟨FV.num 10, FV.num 1, FV.nan, "a", "x"⟩ ∉
      filtered_df (defaultFilter [derive ⟨FV.num 10, FV.num 1, FV.nan, "a", "x"⟩])
        [derive ⟨FV.num 10, FV.num 1, FV.nan, "a", "x"⟩] :=
  ⟨rfl, nan_discount_excluded _ _ _ rfl⟩

/-- A row whose discount cell failed to parse (NaN), used to refute the
universal form of the default-filter identity. -/
def nanDiscountRow : DRow := derive ⟨FV.num 5, FV.num 1, FV.nan, "b", "y"⟩

/-- A second row with an ordinary discount, so the slider defaults of the
counterexample table are well-defined numbers. -/
def halfDiscountRow : DRow := derive ⟨FV.num 2, FV.num 3, FV.num (1/2), "b", "y"⟩

/-- C3 counterexample: on a table containing a NaN-discount row (and a
normal row, so the slider defaults are the numbers `[1/2, 1/2]`), the
default filter values do NOT reproduce the full dataset — the NaN row is
dropped. -/
theorem default_filter_counterexample :
    filtered_df (defaultFilter [nanDiscountRow, halfDiscountRow])
      [nanDiscountRow, halfDiscountRow] ≠ [nanDiscountRow, halfDiscountRow] := by
  intro heq
  have hmem : nanDiscountRow ∈
      filtered_df (defaultFilter [nanDiscountRow, halfDiscountRow])
        [nanDiscountRow, halfDiscountRow] := by
    rw [heq]
    exact List.mem_cons_self _ _
  have hp : rowPass (defaultFilter [nanDiscountRow, halfDiscountRow]) nanDiscountRow = true :=
    (List.mem_filter.mp hmem).2
  have hd : nanDiscountRow.discount = FV.nan := rfl
  simp [rowPass, hd, fvLe_nan_right] at hp

/-- C3 amended: on every table whose discount values are all present
(finite numbers, no NaN), the default filter values reproduce the full
dataset exactly. -/
theorem default_filter_identity (tbl : List DRow)
    (h : ∀ r ∈ tbl, ∃ q : ℚ, r.discount = FV.num q) :
    filtered_df (defaultFilter tbl) tbl = tbl := by
  apply List.filter_eq_self.mpr
  intro r hr
  obtain ⟨q, hq⟩ := h r hr
  have hqmem : FV.num q ∈ tbl.map DRow.discount := hq ▸ List.mem_map_of_mem DRow.discount hr
  show rowPass (defaultFilter tbl) r = true
  simp only [rowPass, defaultFilter, Bool.and_eq_true]
  refine ⟨⟨⟨?_, ?_⟩, ?_⟩, ?_⟩
  · have hm : r.category ∈ (tbl.map DRow.category).dedup :=
      List.mem_dedup.mpr (List.mem_map_of_mem DRow.category hr)
    simpa using hm
  · have hm : r.region ∈ (tbl.map DRow.region).dedup :=
      List.mem_dedup.mpr (List.mem_map_of_mem DRow.region hr)
    simpa using hm
  · rw [hq]
    exact minSkip_le hqmem
  · rw [hq]
    exact le_maxSkip hqmem

/-- C3 witness: the spec's own two-row example dataset is reproduced
exactly by the default filter. -/
theorem default_filter_identity_witness :
    (∀ r ∈ [derive ⟨FV.num 100, FV.num 2, FV.num (1/10), "A", "X"⟩,
            derive ⟨FV.num 50, FV.num 1, FV.num 0, "B", "Y"⟩], ∃ q : ℚ, r.discount = FV.num q) ∧
    filtered_df
      (defaultFilter [derive ⟨FV.num 100, FV.num 2, FV.num (1/10), "A", "X"⟩,
                      derive ⟨FV.num 50, FV.num 1, FV.num 0, "B", "Y"⟩])
      [derive ⟨FV.num 100, FV.num 2, FV.num (1/10), "A", "X"⟩,
       derive ⟨FV.num 50, FV.num 1, FV.num 0, "B", "Y"⟩] =
      [derive ⟨FV.num 100, FV.num 2, FV.num (1/10), "A", "X"⟩,
       derive ⟨FV.num 50, FV.num 1, FV.num 0, "B", "Y"⟩] := by
  have h : ∀ r ∈ [derive ⟨FV.num 100, FV.num 2, FV.num (1/10), "A", "X"⟩,
      derive ⟨FV.num 50, FV.num 1, FV.num 0, "B", "Y"⟩], ∃ q : ℚ, r.discount = FV.num q := by
    intro r hr
    rcases List.mem_cons.mp hr with hr1 | hr2
    · exact ⟨1/10, by rw [hr1]; rfl⟩

    · rcases List.mem_cons.mp hr2 with hr3 | hr4
      · exact ⟨0, by rw [hr3]; rfl⟩
      · simp at hr4
  exact ⟨h, default_filter_identity _ h⟩

/-- C4: whenever the Filtered View is empty, the four headline metrics
are NaN or zero, the grouped bar chart has only NaN (absent) bars, and
the insight section takes the no-comparison branch; every panel value is
still defined, nothing raises. -/
theorem empty_view_metrics (fs : FilterState) (tbl : List DRow)
    (h : filtered_df fs tbl = []) :
    metrics (filtered_df fs tbl) =
      { avg_discount := FV.nan, total_revenue := FV.num 0,
        total_profit := FV.num 0, avg_margin := FV.nan } ∧
    insightNarrator (filtered_df fs tbl) = InsightResult.cannotCompare ∧
    ∀ c flag, barHeight (filtered_df fs tbl) c flag = FV.nan := by
  rw [h]
  exact ⟨rfl, rfl, fun c flag => rfl⟩

/-- C4 witness: a contradictory filter (no category selected) over a
one-row table yields the NaN/zero metrics. -/
theorem empty_view_metrics_witness :
    filtered_df ⟨[], ["X"], FV.num 0, FV.num 1⟩ [derive ⟨FV.num 1, FV.num 1, FV.num 0, "A", "X"⟩] = [] ∧
    metrics (filtered_df ⟨[], ["X"], FV.num 0, FV.num 1⟩
        [derive ⟨FV.num 1, FV.num 1, FV.num 0, "A", "X"⟩]) =
      { avg_discount := FV.nan, total_revenue := FV.num 0,
        total_profit := FV.num 0, avg_margin := FV.nan } := by
  have h : filtered_df ⟨[], ["X"], FV.num 0, FV.num 1⟩
      [derive ⟨FV.num 1, FV.num 1, FV.num 0, "A", "X"⟩] = [] := by
    simp [filtered_df, rowPass]
  exact ⟨h, (empty_view_metrics _ _ h).1⟩

/-- C5 counterexample: a source file whose date column is spelled
`Order_Date` defeats the claimed case-insensitive recognition, because
the check `if "order_date" in df.columns` (line 42) runs before the
normalization of column names (line 46): the code does not parse the
column, while the spec-modelled pipeline does. -/
theorem column_normalization_counterexample :
    cleanColumns ⟨["Order_Date"]⟩ ≠ specCleanColumns ⟨["Order_Date"]⟩ := by
  intro h
  have hd := congrArg CleanResult.date_parsed h
  have h1 : (cleanColumns ⟨["Order_Date"]⟩).date_parsed = false := by decide
  have h2 : (specCleanColumns ⟨["Order_Date"]⟩).date_parsed = true := by decide
  rw [h1, h2] at hd
  cases hd

/-- C5 amended: column names are normalized (trimmed, lowercased) before
any lookup that follows line 46, but the optional date column is
recognised BEFORE normalization, by exact match of the raw name
`order_date`; its recognition is therefore case- and
whitespace-sensitive. -/
theorem column_normalization_order (f : RawCols) :
    (cleanColumns f).cols = f.cols.map normName ∧
    ((cleanColumns f).date_parsed = true ↔ "order_date" ∈ f.cols) := by
  refine ⟨rfl, ?_⟩
  simp [cleanColumns]

/-- C5 witness: a file with the exact raw name `order_date` does get its
date column parsed. -/
theorem column_normalization_order_witness :
    (cleanColumns ⟨["order_date", "Price"]⟩).date_parsed = true :=
  (column_normalization_order ⟨["order_date", "Price"]⟩).2.mpr (by simp)

/-- A Filtered-View row with a negative discount, used to refute the
claimed `discount == 0` reading of the non-discounted bar group. -/
def negDiscountRow : DRow := derive ⟨FV.num 10, FV.num 1, FV.num (-1), "a", "x"⟩

/-- C6 counterexample: on a view holding one row with discount `-1`, the
chart's non-discounted bar for its category is that row's profit, but the
mean profit over the rows with `discount == 0` (the claim's reading of
the pair) is NaN over an empty group — the two differ. -/
theorem profit_cat_counterexample :
    barHeight [negDiscountRow] "a" false ≠ specBarHeight [negDiscountRow] "a" false := by
  have h1 : barHeight [negDiscountRow] "a" false = FV.num 20 := by
    norm_num [barHeight, negDiscountRow, derive, meanSkip, fvMul, fvSub, fvAdd, fvNeg,
      fvDiv, fvLt, fvIsNan, List.filter]
  have h2 : specBarHeight [negDiscountRow] "a" false = FV.nan := by
    norm_num [specBarHeight, negDiscountRow, derive, meanSkip, fvEq, fvIsNan, List.filter]
  rw [h1, h2]
  simp

/-- Any row of a Filtered View has a non-NaN discount: it passed both
slider comparisons. -/
lemma mem_filtered_discount_ne_nan (fs : FilterState) (tbl : List DRow) (r : DRow)
    (hr : r ∈ filtered_df fs tbl) : r.discount ≠ FV.nan := by
  have hp : rowPass fs r = true := (List.mem_filter.mp hr).2
  intro hd
  simp [rowPass, hd, fvLe_nan_right] at hp

lemma not_pos_eq_nonpos {v : FV} (h : v ≠ FV.nan) :
    (fvLt (FV.num 0) v == false) = fvLe v (FV.num 0) := by
  cases v with
  | nan => exact absurd rfl h
  | pinf => rfl
  | ninf => rfl
  | num a =>
      show (decide ((0:ℚ) < a) == false) = decide (a ≤ 0)
      by_cases ha : (0:ℚ) < a
      · simp [ha, not_le.mpr ha]
      · simp [ha, le_of_not_lt ha]

/-- C6 amended: the chart groups by the boolean `discount > 0`, so over
any Filtered View the discounted bar of a category is the mean profit of
its rows with `discount > 0` and the non-discounted bar is the mean
profit of its rows with `discount ≤ 0` (not only `discount == 0`); the
two groups partition each category's rows. -/
theorem profit_cat_groups (fs : FilterState) (tbl : List DRow) (c : String) :
    barHeight (filtered_df fs tbl) c true =
      meanSkip (((filtered_df fs tbl).filter
        (fun r => r.category == c && fvLt (FV.num 0) r.discount)).map DRow.profit) ∧
    barHeight (filtered_df fs tbl) c false =
      meanSkip (((filtered_df fs tbl).filter
        (fun r => r.category == c && fvLe r.discount (FV.num 0))).map DRow.profit) := by
  constructor
  · unfold barHeight
    refine congrArg meanSkip (congrArg (List.map DRow.profit) (List.filter_congr ?_))
    intro r hr
    simp
  · unfold barHeight
    refine congrArg meanSkip (congrArg (List.map DRow.profit) (List.filter_congr ?_))
    intro r hr
    rw [not_pos_eq_nonpos (mem_filtered_discount_ne_nan fs tbl r hr)]

/-- C8: the Insight Narrator shows the cannot-compare notice exactly when
the non-discounted subset of the Filtered View is empty, and otherwise
computes `sales_boost` and `profit_diff` by the stated mean formulas. -/
theorem insight_narrator_cases (fv : List DRow) :
    (insightNarrator fv = InsightResult.cannotCompare ↔ nonDiscountedRows fv = []) ∧
    (nonDiscountedRows fv ≠ [] →
      insightNarrator fv = InsightResult.insights
        (fvMul (fvDiv
          (fvSub (meanSkip ((discountedRows fv).map DRow.quantity))
                 (meanSkip ((nonDiscountedRows fv).map DRow.quantity)))
          (meanSkip ((nonDiscountedRows fv).map DRow.quantity))) (FV.num 100))
        (fvMul (fvSub (meanSkip ((discountedRows fv).map DRow.profit_margin))
                      (meanSkip ((nonDiscountedRows fv).map DRow.profit_margin)))
          (FV.num 100))) := by
  unfold insightNarrator
  cases hne : (nonDiscountedRows fv).isEmpty with
  | true =>
      have h : nonDiscountedRows fv = [] := List.isEmpty_iff.mp hne
      simp [h]
  | false =>
      have h : nonDiscountedRows fv ≠ [] := by
        intro hnil
        rw [hnil] at hne
        cases hne
      simp [hne, h]

/-- C8 witness: a view whose only row is discounted takes the
cannot-compare branch. -/
theorem insight_narrator_cases_witness :
    insightNarrator [derive ⟨FV.num 10, FV.num 2, FV.num 1, "a", "x"⟩] =
      InsightResult.cannotCompare :=
  (insight_narrator_cases [derive ⟨FV.num 10, FV.num 2, FV.num 1, "a", "x"⟩]).1.mpr
    (by simp [nonDiscountedRows, fvEq, derive, List.filter,
      show ((1:ℚ) == 0) = false from beq_eq_false_iff_ne.mpr (by norm_num)])

/-- C9: for every row whose revenue is a nonzero finite number, the
derived profit margin equals `1 - discount`; it does not otherwise depend
on price or quantity. -/
theorem profit_margin_discount_only (r : Row) (q : ℚ) (hq : q ≠ 0)
    (hrev : fvMul r.price r.quantity = FV.num q) :
    (derive r).profit_margin = fvSub (FV.num 1) r.discount := by
  show fvDiv (fvSub (fvMul r.price r.quantity) (fvMul (fvMul r.price r.quantity) r.discount))
      (fvMul r.price r.quantity) = fvSub (FV.num 1) r.discount
  rw [hrev]
  cases hd : r.discount with
  | nan => simp [fvMul, fvSub, fvAdd, fvNeg, fvDiv]
  | pinf =>
      rcases hq.lt_or_lt with h | h
      · simp [fvMul, fvSub, fvAdd, fvNeg, fvDiv, h, asymm h]
      · simp [fvMul, fvSub, fvAdd, fvNeg, fvDiv, h, asymm h]
  | ninf =>
      rcases hq.lt_or_lt with h | h
      · simp [fvMul, fvSub, fvAdd, fvNeg, fvDiv, h, asymm h]
      · simp [fvMul, fvSub, fvAdd, fvNeg, fvDiv, h, asymm h]
  | num d =>
      simp only [fvMul, fvSub, fvAdd, fvNeg, fvDiv]
      rw [if_neg hq]
      congr 1
      field_simp
      ring

/-- C9 witness: a concrete row with revenue 2 and discount 0 has margin
`1 - 0`. -/
theorem profit_margin_discount_only_witness :
    (2:ℚ) ≠ 0 ∧ fvMul (FV.num 2) (FV.num 1) = FV.num 2 ∧
    (derive ⟨FV.num 2, FV.num 1, FV.num 0, "A", "X"⟩).profit_margin =
      fvSub (FV.num 1) (FV.num 0) := by
  have h2 : (2:ℚ) ≠ 0 := by norm_num
  have hm : fvMul (FV.num 2) (FV.num 1) = FV.num 2 := by norm_num [fvMul]
  exact ⟨h2, hm, profit_margin_discount_only ⟨FV.num 2, FV.num 1, FV.num 0, "A", "X"⟩ 2 h2 hm⟩
